import Mathlib

/-!
Verification development for the Sparebank1 Pengerobot integration
(custom_components/sparebank1_pengerobot).

The Python sources are shallowly embedded: pure helpers from `utils.py`
become Lean functions over an exact model of `decimal.Decimal` values,
the API client helpers from `api.py` become functions parameterised by
an oracle describing the upstream responses, and the coordinator logic
from `coordinator.py` becomes explicit state-passing functions.

Modelling conventions:
* Python machine-independent `int` is `Int`/`Nat` directly.
* `decimal.Decimal` finite values are modelled exactly as a coefficient
  together with a power-of-ten exponent (`Dec`).  The default decimal
  context precision (28 significant digits) only matters for amounts
  with more than 28 significant digits and is not modelled; special
  values (`NaN`, `Infinity`) are likewise outside the model.
* Wall-clock instants (`datetime.utcnow()`) are natural numbers
  counting seconds.
* Fallible code returns `Except`/`Option`.
-/

namespace SB1

/-! ## Exact model of the `decimal.Decimal` values used by the code -/

/-- A finite decimal number: `num * 10 ^ exp`.  Mirrors the coefficient /
exponent representation of Python's `decimal.Decimal`. -/
structure Dec where
  num : Int
  exp : Int
deriving DecidableEq

/-- Characters stripped by `re.sub(r'[\s\.]', '', ...)` in
`validate_norwegian_account_number` (utils.py line 14): ASCII whitespace
and the dot.  (Exotic Unicode whitespace also matched by Python's `\s`
is irrelevant to the claims and not modelled.) -/
def sepChar (c : Char) : Bool :=
  c == ' ' || c == '\t' || c == '\n' || c == '\r' || c == '\x0b' || c == '\x0c' || c == '.'

/-- The checksum weights of utils.py line 22. -/
def weights : List Nat := [5, 4, 3, 2, 7, 6, 5, 4, 3, 2]

/-- Weighted digit sum against a weight list (the loop of utils.py
lines 25-26, generalised over the weight list for induction). -/
def weightedSum (ds ws : List Nat) : Nat :=
  (List.zipWith (fun d w => d * w) ds ws).sum

/-- `checksum` accumulated over the first ten digits (utils.py lines 23-26). -/
def checksum (first10 : List Nat) : Nat :=
  weightedSum first10 weights

/-- Expected check digit from the checksum remainder (utils.py lines 28-29). -/
def expectedCheckDigit (first10 : List Nat) : Nat :=
  let remainder := checksum first10 % 11
  if remainder < 2 then 0 else 11 - remainder

/-- `validate_norwegian_account_number` (utils.py lines 8-32) on strings.
The `isinstance` guard is vacuous for `String` inputs.  `\d` is modelled
as the ASCII digits. -/
def validate_norwegian_account_number (s : String) : Bool :=
  let clean := s.data.filter (fun c => !sepChar c)
  if clean.length == 11 && clean.all Char.isDigit then
    let ds := clean.map (fun c => c.toNat - 48)
    expectedCheckDigit (ds.take 10) == ds.getD 10 0
  else
    false

/-- The character for a decimal digit `d < 10`. -/
def digitChar (d : Nat) : Char := Char.ofNat (48 + d)

/-- Render a list of digits as the corresponding string of digit
characters (used to feed digit vectors to the validator). -/
def digitsToString (ds : List Nat) : String :=
  String.mk (ds.map digitChar)

/-- The transformation named by the claim about separator insensitivity:
remove every space and every dot from the string. -/
def removeSpacesAndDots (s : String) : String :=
  String.mk (s.data.filter (fun c => !(c == ' ' || c == '.')))

/-! ## Decimal arithmetic helpers -/

/-- ASCII whitespace stripped by `Decimal(str)` around a numeral. -/
def wsChar (c : Char) : Bool :=
  c == ' ' || c == '\t' || c == '\n' || c == '\r' || c == '\x0b' || c == '\x0c'

/-- Numeric value of a list of ASCII digit characters. -/
def digitsVal (ds : List Char) : Nat :=
  ds.foldl (fun a c => 10 * a + (c.toNat - 48)) 0

/-- Parse a finite decimal numeral the way `decimal.Decimal(str)` does:
optional surrounding whitespace, optional sign, digits with an optional
single point (at least one digit overall), optional exponent part.
Returns `none` exactly when the constructor raises `InvalidOperation`
(special values such as `NaN`/`Infinity` are outside the model). -/
def parseDecimal (s : String) : Option Dec :=
  let cs := s.data.dropWhile wsChar
  let cs := (cs.reverse.dropWhile wsChar).reverse
  let signed : Int × List Char :=
    match cs with
    | '+' :: r => (1, r)
    | '-' :: r => (-1, r)
    | r => (1, r)
  let sign := signed.1
  let cs1 := signed.2
  let ipart := cs1.takeWhile Char.isDigit
  let rest := cs1.dropWhile Char.isDigit
  let fracked : List Char × List Char :=
    match rest with
    | '.' :: r => (r.takeWhile Char.isDigit, r.dropWhile Char.isDigit)
    | r => ([], r)
  let fpart := fracked.1
  let rest2 := fracked.2
  if ipart.isEmpty && fpart.isEmpty then none
  else
    let mantissa : Int := sign * (digitsVal (ipart ++ fpart) : Int)
    match rest2 with
    | [] => some ⟨mantissa, -(fpart.length : Int)⟩
    | e :: r3 =>
      if e == 'e' || e == 'E' then
        let esigned : Int × List Char :=
          match r3 with
          | '+' :: r => (1, r)
          | '-' :: r => (-1, r)
          | r => (1, r)
        let eds := esigned.2.takeWhile Char.isDigit
        if eds.isEmpty || !(esigned.2.dropWhile Char.isDigit).isEmpty then none
        else some ⟨mantissa, esigned.1 * (digitsVal eds : Int) - (fpart.length : Int)⟩
      else none

/-- Round `n / p` (with `p > 0`) to the nearest integer, ties to the even
neighbour: the `ROUND_HALF_EVEN` mode that the default decimal context
applies in `quantize`. -/
def roundHalfEvenDiv (n p : Int) : Int :=
  let q := n / p
  let r := n % p
  if 2 * r < p then q
  else if p < 2 * r then q + 1
  else if q % 2 = 0 then q else q + 1

/-- Round `n / p` (with `p > 0`) to the nearest integer, ties away from
zero: the decimal module's `ROUND_HALF_UP` mode. -/
def roundHalfUpDiv (n p : Int) : Int :=
  let q := n / p
  let r := n % p
  if 2 * r < p then q
  else if p < 2 * r then q + 1
  else if 0 ≤ n then q + 1 else q

/-- `x.quantize(Decimal('0.01'))` under the default context rounding
(`ROUND_HALF_EVEN`): bring the value to exponent `-2`. -/
def quantizeHalfEven2 (a : Dec) : Dec :=
  if -2 ≤ a.exp then ⟨a.num * 10 ^ (a.exp + 2).toNat, -2⟩
  else ⟨roundHalfEvenDiv a.num (10 ^ (-(a.exp + 2)).toNat), -2⟩

/-- `x.quantize(Decimal("0.01"), rounding=ROUND_HALF_UP)`. -/
def quantizeHalfUp2 (a : Dec) : Dec :=
  if -2 ≤ a.exp then ⟨a.num * 10 ^ (a.exp + 2).toNat, -2⟩
  else ⟨roundHalfUpDiv a.num (10 ^ (-(a.exp + 2)).toNat), -2⟩

/-- Rescale two decimals to their common (minimal) exponent, for numeric
comparison. -/
def decScale (a b : Dec) : Int × Int :=
  (a.num * 10 ^ (a.exp - min a.exp b.exp).toNat,
   b.num * 10 ^ (b.exp - min a.exp b.exp).toNat)

/-- Numeric strict order on decimals (`Decimal.__lt__`). -/
def decLt (a b : Dec) : Bool :=
  decide ((decScale a b).1 < (decScale a b).2)

/-- Digit characters of `n`, most significant first (fuel-based so the
kernel can evaluate it). -/
def natToCharsAux : Nat → Nat → List Char
  | 0, _ => []
  | fuel + 1, n =>
    if n < 10 then [digitChar n]
    else natToCharsAux fuel (n / 10) ++ [digitChar (n % 10)]

/-- Digit characters of `n`, most significant first. -/
def natToChars (n : Nat) : List Char := natToCharsAux (n + 1) n

/-- Left-pad a digit list with zeros up to `len` characters. -/
def padLeftZeros (len : Nat) (cs : List Char) : List Char :=
  List.replicate (len - cs.length) '0' ++ cs

/-- Plain (non-scientific) rendering of a decimal: models `str(Decimal)`
and `format(Decimal, "f")` for the exponents produced by this code
(`exp ≤ 0` with small adjusted exponents, where both agree). -/
def decToString (d : Dec) : String :=
  if d.exp < 0 then
    let s := (-d.exp).toNat
    let n := d.num.natAbs
    String.mk ((if d.num < 0 then ['-'] else []) ++
      natToChars (n / 10 ^ s) ++ ['.'] ++ padLeftZeros s (natToChars (n % 10 ^ s)))
  else
    String.mk ((if d.num < 0 then ['-'] else []) ++
      natToChars (d.num.natAbs * 10 ^ d.exp.toNat))

/-! ## `utils.py`: amount validation and currency conversion -/

/-- `validate_amount` (utils.py lines 35-60).  The maximum, a Python
float in the source, enters the comparison as `Decimal(str(max_amount))`
and is therefore modelled directly as the decimal it converts to. -/
def validate_amount (amountStr : String) (maxAmount : Option Dec) :
    Bool × Option Dec × String :=
  match parseDecimal amountStr with
  | none => (false, none, "Invalid amount format")
  | some a =>
    if a.num ≤ 0 then (false, none, "Amount must be positive")
    else
      match maxAmount with
      | some m =>
        if decLt m a then (false, none, "Amount cannot exceed " ++ decToString m)
        else (true, some (quantizeHalfEven2 a), "")
      | none => (true, some (quantizeHalfEven2 a), "")

/-- `CURRENCY_RATES` of const.py, with each float rate already taken
through `Decimal(str(rate))` as convert_currency does (`str(0.1)` is
`"0.1"`, and so on). -/
def CURRENCY_RATES : List (String × Dec) :=
  [("NOK", ⟨10, -1⟩), ("SEK", ⟨10, -1⟩), ("DKK", ⟨10, -1⟩),
   ("USD", ⟨1, -1⟩), ("EUR", ⟨83, -3⟩), ("GBP", ⟨71, -3⟩)]

/-- `convert_currency` (utils.py lines 63-93): divide by the source
rate, multiply by the target rate, quantize to two decimals at the end.
The two decimal operations are combined into one exact rational final
rounding here; the context precision of 28 significant digits, which
could only matter for amounts with more than 28 significant digits, is
not modelled. -/
def convert_currency (amount : Dec) (fromCurrency toCurrency : String) :
    Except String Dec :=
  match CURRENCY_RATES.lookup fromCurrency with
  | none => .error ("Unsupported source currency: " ++ fromCurrency)
  | some rf =>
    match CURRENCY_RATES.lookup toCurrency with
    | none => .error ("Unsupported target currency: " ++ toCurrency)
    | some rt =>
      if fromCurrency = toCurrency then .ok amount
      else
        let e := amount.exp - rf.exp + rt.exp + 2
        let n := if 0 ≤ e then amount.num * rt.num * 10 ^ e.toNat else amount.num * rt.num
        let d := if 0 ≤ e then rf.num else rf.num * 10 ^ (-e).toNat
        .ok ⟨roundHalfEvenDiv n d, -2⟩

/-- `validate_amount_with_currency_conversion` (utils.py lines 96-140).
The `max_amount_in_default_currency` float is modelled as the decimal
`Decimal(str(max))` it is compared through. -/
def validate_amount_with_currency_conversion
    (amountStr transferCurrency deviceDefaultCurrency : String)
    (maxAmount : Dec) : Bool × Option Dec × String :=
  match validate_amount amountStr none with
  | (false, a, e) => (false, a, e)
  | (true, none, _) => (false, none, "Invalid amount format")
  | (true, some a, _) =>
    match convert_currency a transferCurrency deviceDefaultCurrency with
    | .error e => (false, none, e)
    | .ok converted =>
      if decLt maxAmount converted then
        (false, none,
          "Transfer amount of " ++ decToString a ++ " " ++ transferCurrency ++
          " (equivalent to " ++ decToString converted ++ " " ++ deviceDefaultCurrency ++
          ") exceeds maximum allowed amount of " ++ decToString maxAmount ++ " " ++
          deviceDefaultCurrency)
      else (true, some a, "")

/-- Modelled directly from the spec's words for comparison with the
implementation: round a decimal to 2 places with round-half-up,
expressed as `sign * floor(|value| * 100 + 1/2)` hundredths. -/
def specRoundHalfUp2 (a : Dec) : Dec :=
  if -2 ≤ a.exp then ⟨a.num * 10 ^ (a.exp + 2).toNat, -2⟩
  else
    let p : Int := 10 ^ (-(a.exp + 2)).toNat
    let mag := (2 * (a.num.natAbs : Int) + p) / (2 * p)
    ⟨(if a.num < 0 then -1 else 1) * mag, -2⟩

/-! ## `api.py`: the API client

HTTP itself is abstracted into oracles describing what the upstream
returns; the client's control flow around those responses (per-account
error swallowing, payload construction, error-message formatting) is
embedded faithfully. -/

/-- One balance response body; `accountBalance` is the decimal string
when that key is present in the JSON. -/
structure BalResp where
  accountBalance : Option String
deriving DecidableEq

/-- Outcome of one `POST /personal/banking/accounts/balance` request.
`apiErr` is any `Sparebank1APIError` (including its rate-limit
subclass), which api.py lines 192-194 catch per account; `otherErr` is
any other exception, which escapes `get_account_balances`. -/
inductive FetchOutcome where
  | ok (resp : BalResp)
  | apiErr (msg : String)
  | otherErr (msg : String)
deriving DecidableEq

/-- `get_account_balances` (api.py lines 170-195): one POST per account
number; an API error is logged and skipped, so the account is simply
absent from the result mapping; any other exception propagates. -/
def get_account_balances (oracle : String → FetchOutcome) :
    List String → Except String (List (String × BalResp))
  | [] => .ok []
  | n :: rest =>
    match oracle n with
    | .ok r => (get_account_balances oracle rest).map (fun tl => (n, r) :: tl)
    | .apiErr _ => get_account_balances oracle rest
    | .otherErr m => .error m

/-- Number of HTTP POSTs `get_account_balances` issues on the given
list (it stops at the first non-API exception). -/
def balCallCount (oracle : String → FetchOutcome) : List String → Nat
  | [] => 0
  | n :: rest =>
    match oracle n with
    | .otherErr _ => 1
    | _ => 1 + balCallCount oracle rest

/-- The message a `Sparebank1RateLimitError` carries (api.py line 125):
built from the `Retry-After` header value (already defaulted to
`"3600"` when the header is absent) and the error body text. -/
def rateLimitMessage (retryAfter errText : String) : String :=
  "Rate limit exceeded. Retry after " ++ retryAfter ++ " seconds: " ++ errText

/-- The JSON body `transfer_money` (api.py lines 197-231) sends.
`message`/`dueDate` are `none` when the corresponding key is omitted
from the payload. -/
structure TransferPayload where
  amount : String
  fromAccount : String
  toAccount : String
  currencyCode : String
  message : Option String
  dueDate : Option String
deriving DecidableEq

/-- `transfer_money` payload construction (api.py lines 209-224):
quantize the amount to two decimals with `ROUND_HALF_UP`, serialize it
with `format(-, "f")`, and add `message`/`dueDate` only when truthy. -/
def transfer_money (fromAccount toAccount : String) (amount : Dec)
    (currency : String) (description : String) (dueDate : Option String) :
    TransferPayload :=
  { amount := decToString (quantizeHalfUp2 amount)
    fromAccount := fromAccount
    toAccount := toAccount
    currencyCode := currency
    message := if description = "" then none else some description
    dueDate :=
      match dueDate with
      | none => none
      | some s => if s = "" then none else some s }

/-! ## `coordinator.py`: the sync coordinator -/

/-- The balance value stored under an account's `balance` key.
`num v` is an inline numeric balance as delivered for credit cards,
identified by its `str()` image `v`; `obj` is the dict form
`{"amount": ..., "currency": ...}` the coordinator writes. -/
inductive BalVal where
  | num (v : String)
  | obj (amount : Option String) (currency : String)
deriving DecidableEq

/-- The account-dict fields the coordinator reads and writes.  A field
is `none` when the key is absent from the dict. -/
structure Account where
  accountNumber : Option String
  accType : String
  name : String
  currencyCode : Option String
  balance : Option BalVal
deriving DecidableEq

/-- Python truthiness of `acc.get("accountNumber")`: present and
non-empty. -/
def pyTruthy : Option String → Bool
  | none => false
  | some s => !(s == "")

/-- `acc.get("currencyCode", "NOK")`. -/
def currencyOrNOK (a : Account) : String := a.currencyCode.getD "NOK"

/-- The identifying, non-balance fields of an account (everything the
balance-enrichment passes must leave untouched). -/
def shape (a : Account) : Option String × String × String × Option String :=
  (a.accountNumber, a.accType, a.name, a.currencyCode)

/-- The coordinator's data dict (`self.data`).  `balance_fetch_errors`
is `none` when the key is absent. -/
structure Snapshot where
  accounts : List Account
  last_update : Nat
  balance_fetch_errors : Option (List String)
  balance_fetch_partial : Bool
deriving DecidableEq

/-- Coordinator mutable state relevant to polling. -/
structure CoordState where
  rateLimitBackoffUntil : Option Nat
deriving DecidableEq

/-- Account filtering (coordinator.py lines 89-107): an empty selection
means "track all", otherwise keep accounts whose `accountNumber` is
selected (`None in selected` is false). -/
def filterSelected (selected : List String) (accounts : List Account) :
    List Account :=
  if selected.isEmpty then accounts
  else accounts.filter (fun a =>
    match a.accountNumber with
    | some n => selected.contains n
    | none => false)

/-- The credit-card skip test of coordinator.py line 123.
`acc_no.startswith("K")` is expressed on the character list. -/
def creditCardSkip (a : Account) : Bool :=
  a.accType == "CREDITCARD" ||
    (pyTruthy a.accountNumber && "K".data.isPrefixOf (a.accountNumber.getD "").data)

/-- First enrichment pass (coordinator.py lines 115-149): collect the
account numbers to look up, skipping credit cards and accounts without
a truthy `accountNumber`. -/
def collectNumbers (accounts : List Account) : List String :=
  accounts.filterMap (fun a =>
    if creditCardSkip a then none
    else if pyTruthy a.accountNumber then some (a.accountNumber.getD "")
    else none)

/-- Second enrichment pass, per account (coordinator.py lines 160-180):
an inline numeric balance is rewritten to the dict form with its
`str()` image as amount. -/
def convertInline (a : Account) : Account :=
  match a.balance with
  | some (.num v) => { a with balance := some (.obj (some v) (currencyOrNOK a)) }
  | _ => a

/-- Second enrichment pass, number removal (coordinator.py lines
182-185): drop the numbers of accounts that already carried an inline
numeric balance. -/
def removeInlineNums (accounts : List Account) (nums : List String) :
    List String :=
  accounts.foldl (fun ns a =>
    match a.balance with
    | some (.num _) =>
      match a.accountNumber with
      | some n => ns.erase n
      | none => ns
    | _ => ns) nums

/-- Merge pass of the full poll (coordinator.py lines 193-226): replace
the balance of accounts whose number was fetched and whose response
carries `accountBalance`. -/
def mergeBalances (numbers : List String) (balances : List (String × BalResp))
    (a : Account) : Account :=
  match a.accountNumber with
  | none => a
  | some n =>
    if !pyTruthy a.accountNumber || !numbers.contains n then a
    else
      match balances.lookup n with
      | none => a
      | some r =>
        match r.accountBalance with
        | some v => { a with balance := some (.obj (some v) (currencyOrNOK a)) }
        | none => a

/-- The numbers the balance batch of a full poll will request, after
both preparatory passes. -/
def enrichNums (accounts : List Account) : List String :=
  removeInlineNums accounts (collectNumbers accounts)

/-- The whole balance-enrichment phase of `_async_update_data`
(coordinator.py lines 111-232): returns the resulting account list, the
`balance_fetch_errors` collected (the phase's `except` appends the one
escaping exception), and the number of HTTP calls made. -/
def enrich (oracle : String → FetchOutcome) (accounts : List Account) :
    List Account × List String × Nat :=
  let nums := enrichNums accounts
  let converted := accounts.map convertInline
  if nums.isEmpty then (converted, [], 0)
  else
    match get_account_balances oracle nums with
    | .error m => (converted, [m], balCallCount oracle nums)
    | .ok balances => (converted.map (mergeBalances nums balances), [], nums.length)

/-- Result of `get_accounts` as seen by `_async_update_data`:
either the account list, or one of the exception kinds the coordinator
catches (coordinator.py lines 255-278).  A rate-limit error carries the
`Retry-After` header value and body text its message is built from. -/
inductive AccountsResult where
  | ok (accounts : List Account)
  | rateLimit (retryAfter errText : String)
  | apiError (msg : String)
  | otherError (msg : String)

/-- `re.search(r'Retry after (\d+) seconds', msg)` followed by
`int(group(1))` (coordinator.py lines 259-262): scan for the first
position where the literal `Retry after ` is followed by a nonempty
digit run and then ` seconds`. -/
def parseRetryAfterFrom : List Char → Option Nat
  | [] => none
  | c :: rest =>
    let here :=
      let l := c :: rest
      if "Retry after ".data.isPrefixOf l then
        let l1 := l.drop 12
        let ds := l1.takeWhile Char.isDigit
        if !ds.isEmpty && " seconds".data.isPrefixOf (l1.drop ds.length) then
          some (digitsVal ds)
        else none
      else none
    match here with
    | some v => some v
    | none => parseRetryAfterFrom rest

/-- Backoff seconds extracted from a rate-limit error message, default
3600 on no match (coordinator.py lines 258-264). -/
def parseRetryAfter (msg : String) : Nat :=
  (parseRetryAfterFrom msg.data).getD 3600

/-- Outcome of one `_async_update_data` call. -/
structure UpdateOutcome where
  state : CoordState
  result : Except String Snapshot
  httpCalls : Nat

/-- `_async_update_data` (coordinator.py lines 56-278) as a function of
the coordinator state, the current time, the configured selection, the
accounts-call outcome and the balance oracle. -/
def update_data (s : CoordState) (now : Nat) (selected : List String)
    (accountsResult : AccountsResult) (oracle : String → FetchOutcome) :
    UpdateOutcome :=
  let blocked :=
    match s.rateLimitBackoffUntil with
    | some t => decide (now < t)
    | none => false
  if blocked then
    { state := s, result := .error "Rate limited, will retry later", httpCalls := 0 }
  else
    match accountsResult with
    | .rateLimit retryAfter errText =>
      let msg := rateLimitMessage retryAfter errText
      let backoffSeconds := parseRetryAfter msg
      { state := ⟨some (now + backoffSeconds)⟩
        result := .error ("Rate limited: " ++ msg)
        httpCalls := 1 }
    | .apiError m =>
      { state := s, result := .error ("API error: " ++ m), httpCalls := 1 }
    | .otherError m =>
      { state := s, result := .error ("Unexpected error: " ++ m), httpCalls := 1 }
    | .ok accounts =>
      let filtered := filterSelected selected accounts
      let enriched := enrich oracle filtered
      { state := ⟨none⟩
        result := .ok
          { accounts := enriched.1
            last_update := now
            balance_fetch_errors :=
              if enriched.2.1.isEmpty then none else some enriched.2.1
            balance_fetch_partial := !enriched.2.1.isEmpty }
        httpCalls := 1 + enriched.2.2 }

/-- The currency chosen by the targeted-refresh merge (coordinator.py
line 372): `acc.get("currencyCode", acc.get("balance", {}).get("currency", "NOK"))`.
When `currencyCode` is absent and the stored balance is an inline
number, the Python expression raises `AttributeError` (floats have no
`.get`), modelled as the error case. -/
def refreshCurrency (a : Account) : Except String String :=
  match a.currencyCode with
  | some c => .ok c
  | none =>
    match a.balance with
    | some (.num _) => .error "AttributeError: float object has no attribute get"
    | some (.obj _ cur) => .ok cur
    | none => .ok "NOK"

/-- Targeted-refresh merge for one account (coordinator.py lines
366-374): accounts whose number is in the fetched mapping get their
balance replaced with `{"amount": resp.get("accountBalance"), ...}`. -/
def refreshMergeAcc (balances : List (String × BalResp)) (a : Account) :
    Except String Account :=
  match a.accountNumber with
  | none => .ok a
  | some n =>
    match balances.lookup n with
    | none => .ok a
    | some r =>
      match refreshCurrency a with
      | .error e => .error e
      | .ok cur => .ok { a with balance := some (.obj r.accountBalance cur) }

/-- Whether the targeted-refresh loop set `updated_any`. -/
def refreshUpdatedAny (balances : List (String × BalResp))
    (accounts : List Account) : Bool :=
  accounts.any (fun a =>
    match a.accountNumber with
    | some n => (balances.lookup n).isSome
    | none => false)

/-- The targeted-refresh merge loop over the whole account list,
stopping at the first escaping exception. -/
def mergeAll (balances : List (String × BalResp)) :
    List Account → Except String (List Account)
  | [] => .ok []
  | a :: rest =>
    match refreshMergeAcc balances a with
    | .error e => .error e
    | .ok a' => (mergeAll balances rest).map (fun tl => a' :: tl)

/-- `async_refresh_account_balances` (coordinator.py lines 342-381) as
a function of the oracle, the requested numbers, the current data and
the time.  Returns `(newData, published, fullPollRequested)`; an
escaping exception is the `.error` case. -/
def refresh_account_balances (oracle : String → FetchOutcome)
    (nums : List String) (data : Option Snapshot) (now : Nat) :
    Except String (Option Snapshot × Bool × Bool) :=
  if nums.isEmpty then .ok (data, false, false)
  else
    match data with
    | none => .ok (none, false, true)
    | some snap =>
      match get_account_balances oracle nums with
      | .error e => .error e
      | .ok balances =>
        match mergeAll balances snap.accounts with
        | .error e => .error e
        | .ok accounts' =>
          if refreshUpdatedAny balances snap.accounts then
            .ok (some { snap with
                          accounts := accounts'
                          last_update := now
                          balance_fetch_partial := true }, true, false)
          else .ok (some snap, false, false)

/-- `async_transfer_money` (coordinator.py lines 280-310), given the
API transfer call's outcome: on success, one targeted refresh of the
two involved accounts, falling back to one `async_request_refresh` if
that refresh throws.  Returns the propagated result together with
`(targetedRefreshCalls, fullPollRequests)`. -/
def async_transfer_money (oracle : String → FetchOutcome)
    (transferResult : Except String String) (data : Option Snapshot)
    (now : Nat) (fromAccount toAccount : String) :
    Except String String × Nat × Nat :=
  match transferResult with
  | .error e => (.error e, 0, 0)
  | .ok res =>
    match refresh_account_balances oracle [fromAccount, toAccount] data now with
    | .ok (_, _, fullPoll) => (.ok res, 1, if fullPoll then 1 else 0)
    | .error _ => (.ok res, 1, 1)

/-- Substring containment, used to state what an error message must
mention. -/
def containsStr (sub s : String) : Prop := sub.data <:+: s.data

instance (sub s : String) : Decidable (containsStr sub s) :=
  inferInstanceAs (Decidable (sub.data <:+: s.data))

/-- The rational value of a decimal. -/
def decValue (d : Dec) : ℚ := (d.num : ℚ) * (10 : ℚ) ^ d.exp

/-- Modelled directly from the spec's words for comparison with the
implementation: `amount / rate[from] * rate[to]`, computed exactly and
rounded to 2 decimals (half-even) only at the end. -/
def specConvertAtEnd (a rf rt : Dec) : Dec :=
  let q : ℚ := 100 * (decValue a / decValue rf * decValue rt)
  ⟨roundHalfEvenDiv q.num (q.den : Int), -2⟩

/-! ## Helper lemmas -/

lemma data_append (s t : String) : (s ++ t).data = s.data ++ t.data := rfl

lemma validate_amount_success (s : String) (maxAmount : Option Dec) (a : Dec)
    (hp : parseDecimal s = some a) (hpos : 0 < a.num)
    (hmax : ∀ m, maxAmount = some m → decLt m a = false) :
    validate_amount s maxAmount = (true, some (quantizeHalfEven2 a), "") := by
  unfold validate_amount
  rw [hp]
  dsimp only
  have h1 : ¬(a.num ≤ 0) := by omega
  rw [if_neg h1]
  cases maxAmount with
  | none => rfl
  | some m => simp [hmax m rfl]

lemma roundHalfEvenDiv_scale (n d k : Int) (_hd : 0 < d) (hk : 0 < k) :
    roundHalfEvenDiv (n * k) (d * k) = roundHalfEvenDiv n d := by
  unfold roundHalfEvenDiv
  have h1 : n * k / (d * k) = n / d := by
    rw [mul_comm n k, mul_comm d k]
    exact Int.mul_ediv_mul_of_pos _ _ hk
  have h2 : n * k % (d * k) = k * (n % d) := by
    rw [mul_comm n k, mul_comm d k]
    exact Int.mul_emod_mul_of_pos _ _ hk
  rw [h1, h2]
  have c1 : 2 * (k * (n % d)) < d * k ↔ 2 * (n % d) < d := by
    rw [show 2 * (k * (n % d)) = k * (2 * (n % d)) by ring, mul_comm d k,
      mul_lt_mul_left hk]
  have c2 : d * k < 2 * (k * (n % d)) ↔ d < 2 * (n % d) := by
    rw [show 2 * (k * (n % d)) = k * (2 * (n % d)) by ring, mul_comm d k,
      mul_lt_mul_left hk]
  simp only [c1, c2]

lemma roundHalfEvenDiv_congr (n d m e : Int) (hd : 0 < d) (he : 0 < e)
    (h : n * e = m * d) : roundHalfEvenDiv n d = roundHalfEvenDiv m e := by
  have h1 := roundHalfEvenDiv_scale n d e hd he
  have h2 := roundHalfEvenDiv_scale m e d he hd
  rw [← h1, ← h2, h, mul_comm d e]

lemma rate_facts (c : String) (r : Dec) (h : CURRENCY_RATES.lookup c = some r) :
    0 < r.num ∧ r.exp < 0 := by
  unfold CURRENCY_RATES at h
  simp only [List.lookup] at h
  repeat' split at h
  all_goals simp_all
  all_goals subst h
  all_goals decide

lemma decValue_formula (a rf rt : Dec) (hf : 0 < rf.num) :
    (100 : ℚ) * (decValue a / decValue rf * decValue rt) =
      ((a.num * rt.num : Int) : ℚ) / ((rf.num : Int) : ℚ) *
        (10 : ℚ) ^ (a.exp - rf.exp + rt.exp + 2) := by
  have h10 : (10 : ℚ) ≠ 0 := by norm_num
  have hFne : ((rf.num : Int) : ℚ) ≠ 0 := by exact_mod_cast hf.ne'
  have hzf : (10 : ℚ) ^ rf.exp ≠ 0 := zpow_ne_zero _ h10
  unfold decValue
  rw [show a.exp - rf.exp + rt.exp + 2 = a.exp + rt.exp + 2 + (-rf.exp) by ring,
    zpow_add₀ h10, zpow_add₀ h10, zpow_add₀ h10, zpow_neg]
  field_simp
  ring

lemma specConvertAtEnd_eq (a rf rt : Dec) (hf : 0 < rf.num) :
    specConvertAtEnd a rf rt =
      ⟨roundHalfEvenDiv
        (if 0 ≤ a.exp - rf.exp + rt.exp + 2 then
          a.num * rt.num * 10 ^ (a.exp - rf.exp + rt.exp + 2).toNat
         else a.num * rt.num)
        (if 0 ≤ a.exp - rf.exp + rt.exp + 2 then rf.num
         else rf.num * 10 ^ (-(a.exp - rf.exp + rt.exp + 2)).toNat), -2⟩ := by
  unfold specConvertAtEnd
  have hq := decValue_formula a rf rt hf
  set q : ℚ := 100 * (decValue a / decValue rf * decValue rt) with hqdef
  have hdenpos : (0 : Int) < (q.den : Int) := by exact_mod_cast q.pos
  have hdenne : ((q.den : ℕ) : ℚ) ≠ 0 := Nat.cast_ne_zero.mpr q.den_nz
  have hFne : ((rf.num : Int) : ℚ) ≠ 0 := by exact_mod_cast hf.ne'
  by_cases hcase : 0 ≤ a.exp - rf.exp + rt.exp + 2
  · simp only [if_pos hcase]
    have hpow : (10 : ℚ) ^ (a.exp - rf.exp + rt.exp + 2) =
        ((10 ^ (a.exp - rf.exp + rt.exp + 2).toNat : Int) : ℚ) := by
      rw [← Int.toNat_of_nonneg hcase, zpow_natCast]
      push_cast
      rw [Int.toNat_of_nonneg hcase]
    have hq2 : q = ((a.num * rt.num * 10 ^ (a.exp - rf.exp + rt.exp + 2).toNat : Int) : ℚ) /
        ((rf.num : Int) : ℚ) := by
      rw [hq, hpow]
      push_cast
      ring
    have h1 : ((q.num : Int) : ℚ) / ((q.den : ℕ) : ℚ) =
        ((a.num * rt.num * 10 ^ (a.exp - rf.exp + rt.exp + 2).toNat : Int) : ℚ) /
          ((rf.num : Int) : ℚ) := by
      rw [Rat.num_div_den, hq2]
    rw [div_eq_div_iff hdenne hFne] at h1
    have hcross : q.num * rf.num =
        a.num * rt.num * 10 ^ (a.exp - rf.exp + rt.exp + 2).toNat * (q.den : Int) := by
      exact_mod_cast h1
    exact congrArg (fun z => Dec.mk z (-2))
      (roundHalfEvenDiv_congr q.num (q.den : Int) _ rf.num hdenpos hf hcross)
  · simp only [if_neg hcase]
    have hk : a.exp - rf.exp + rt.exp + 2 = -(((-(a.exp - rf.exp + rt.exp + 2)).toNat : ℕ) : Int) := by
      omega
    have hpow : (10 : ℚ) ^ (a.exp - rf.exp + rt.exp + 2) =
        (((10 ^ (-(a.exp - rf.exp + rt.exp + 2)).toNat : Int) : ℚ))⁻¹ := by
      conv_lhs => rw [hk, zpow_neg, zpow_natCast]
      push_cast
      ring
    have hdne : ((rf.num * 10 ^ (-(a.exp - rf.exp + rt.exp + 2)).toNat : Int) : ℚ) ≠ 0 := by
      have : (0 : Int) < rf.num * 10 ^ (-(a.exp - rf.exp + rt.exp + 2)).toNat := by positivity
      exact_mod_cast this.ne'
    have hq2 : q = ((a.num * rt.num : Int) : ℚ) /
        ((rf.num * 10 ^ (-(a.exp - rf.exp + rt.exp + 2)).toNat : Int) : ℚ) := by
      rw [hq, hpow]
      push_cast
      field_simp
    have h1 : ((q.num : Int) : ℚ) / ((q.den : ℕ) : ℚ) =
        ((a.num * rt.num : Int) : ℚ) /
          ((rf.num * 10 ^ (-(a.exp - rf.exp + rt.exp + 2)).toNat : Int) : ℚ) := by
      rw [Rat.num_div_den, hq2]
    rw [div_eq_div_iff hdenne hdne] at h1
    have hcross : q.num * (rf.num * 10 ^ (-(a.exp - rf.exp + rt.exp + 2)).toNat) =
        a.num * rt.num * (q.den : Int) := by
      exact_mod_cast h1
    have hdpos : (0 : Int) < rf.num * 10 ^ (-(a.exp - rf.exp + rt.exp + 2)).toNat := by
      positivity
    exact congrArg (fun z => Dec.mk z (-2))
      (roundHalfEvenDiv_congr q.num (q.den : Int) _ _ hdenpos hdpos hcross)

/-! ## Claim theorems (continued) -/

/-- C10: for every input string, the validator gives the same verdict on
the string and on the string with all spaces and dots removed; in
particular the formatted `"1234.56.78903"` is accepted exactly when the
plain 11-digit string is. -/
theorem spec_c10 :
    (∀ s : String, validate_norwegian_account_number (removeSpacesAndDots s) =
      validate_norwegian_account_number s) ∧
    validate_norwegian_account_number "1234.56.78903" =
      validate_norwegian_account_number "12345678903" := by
  constructor
  · intro s
    have hcl : (removeSpacesAndDots s).data.filter (fun c => !sepChar c) =
        s.data.filter (fun c => !sepChar c) := by
      have hdata : (removeSpacesAndDots s).data =
          s.data.filter (fun c => !(c == ' ' || c == '.')) := rfl
      rw [hdata, List.filter_filter]
      apply List.filter_congr
      intro c _
      cases hx : (c == ' ') <;> cases hy : (c == '.') <;> simp [sepChar, hx, hy]
    simp only [validate_norwegian_account_number, hcl]
  · rfl

/-- C5 (amended): every amount string parsing to a positive decimal not
above the optional maximum passes `validate_amount` and comes back
quantized to two decimal places with the default `ROUND_HALF_EVEN`
(banker's) rounding, not round-half-up. -/
theorem spec_c5_amended (s : String) (maxAmount : Option Dec) (a : Dec)
    (hp : parseDecimal s = some a) (hpos : 0 < a.num)
    (hmax : ∀ m, maxAmount = some m → decLt m a = false) :
    validate_amount s maxAmount = (true, some (quantizeHalfEven2 a), "") :=
  validate_amount_success s maxAmount a hp hpos hmax

/-- C5 witness: `validate_amount "10.005"` succeeds with the half-even
quantization of `10.005`. -/
theorem spec_c5_witness :
    validate_amount "10.005" none = (true, some (quantizeHalfEven2 ⟨10005, -3⟩), "") :=
  spec_c5_amended "10.005" none ⟨10005, -3⟩ (by decide) (by decide)
    (fun _ h => nomatch h)

/-- C5 counterexample: `validate_amount "10.005"` returns `10.00`
(half-even), while round-half-up as the claim states would give
`10.01`. -/
theorem spec_c5_counterexample :
    validate_amount "10.005" none = (true, some ⟨1000, -2⟩, "") ∧
    parseDecimal "10.005" = some ⟨10005, -3⟩ ∧
    specRoundHalfUp2 ⟨10005, -3⟩ = ⟨1001, -2⟩ ∧
    some (⟨1000, -2⟩ : Dec) ≠ some (specRoundHalfUp2 ⟨10005, -3⟩) :=
  ⟨by decide, by decide, by decide, by decide⟩

/-- C6: a well-formed positive amount whose conversion into the default
currency exceeds the cap makes
`validate_amount_with_currency_conversion` fail with a message
containing both the original amount with its currency and the converted
amount with the default currency; in particular 50 USD against a
200 NOK cap produces a message containing both "50" and "500". -/
theorem spec_c6 :
    (∀ (s tc dc : String) (maxD a conv : Dec),
      parseDecimal s = some a → 0 < a.num →
      convert_currency (quantizeHalfEven2 a) tc dc = .ok conv →
      decLt maxD conv = true →
      ∃ msg, validate_amount_with_currency_conversion s tc dc maxD =
          (false, none, msg) ∧
        containsStr (decToString (quantizeHalfEven2 a) ++ " " ++ tc) msg ∧
        containsStr (decToString conv ++ " " ++ dc) msg) ∧
    (∃ msg, validate_amount_with_currency_conversion "50" "USD" "NOK" ⟨200, 0⟩ =
        (false, none, msg) ∧ containsStr "50" msg ∧ containsStr "500" msg) := by
  constructor
  · intro s tc dc maxD a conv hp hpos hconv hlt
    have hva := validate_amount_success s none a hp hpos (fun _ h => nomatch h)
    unfold validate_amount_with_currency_conversion
    rw [hva]
    dsimp only
    rw [hconv]
    dsimp only
    rw [if_pos hlt]
    refine ⟨_, rfl, ?_, ?_⟩
    · refine ⟨"Transfer amount of ".data,
        (" (equivalent to " ++ decToString conv ++ " " ++ dc ++
         ") exceeds maximum allowed amount of " ++ decToString maxD ++ " " ++ dc).data, ?_⟩
      simp only [containsStr, data_append, List.append_assoc]
    · refine ⟨("Transfer amount of " ++ decToString (quantizeHalfEven2 a) ++ " " ++ tc ++
        " (equivalent to ").data,
        (") exceeds maximum allowed amount of " ++ decToString maxD ++ " " ++ dc).data, ?_⟩
      simp only [containsStr, data_append, List.append_assoc]
  · refine ⟨_, rfl, ?_, ?_⟩ <;> decide

/-- C7: `convert_currency` errors on a currency absent from the fixed
rate table, short-circuits identity conversions, and otherwise returns
`amount / rate[from] * rate[to]` computed exactly and rounded half-even
to 2 decimals only at the end; in particular 100 USD at rates
`USD=0.1, NOK=1.0` converts to `1000.00` NOK. -/
theorem spec_c7 :
    (∀ (a : Dec) (f t : String), CURRENCY_RATES.lookup f = none →
      convert_currency a f t = .error ("Unsupported source currency: " ++ f)) ∧
    (∀ (a : Dec) (f t : String) (rf : Dec), CURRENCY_RATES.lookup f = some rf →
      CURRENCY_RATES.lookup t = none →
      convert_currency a f t = .error ("Unsupported target currency: " ++ t)) ∧
    (∀ (a : Dec) (c : String) (r : Dec), CURRENCY_RATES.lookup c = some r →
      convert_currency a c c = .ok a) ∧
    (∀ (a : Dec) (f t : String) (rf rt : Dec), CURRENCY_RATES.lookup f = some rf →
      CURRENCY_RATES.lookup t = some rt → f ≠ t →
      convert_currency a f t = .ok (specConvertAtEnd a rf rt)) ∧
    convert_currency ⟨100, 0⟩ "USD" "NOK" = .ok ⟨100000, -2⟩ := by
  refine ⟨?_, ?_, ?_, ?_, by rfl⟩
  · intro a f t h
    unfold convert_currency
    rw [h]
  · intro a f t rf h1 h2
    unfold convert_currency
    rw [h1]
    dsimp only
    rw [h2]
  · intro a c r h
    unfold convert_currency
    rw [h]
    dsimp only
    rw [if_pos rfl]
  · intro a f t rf rt h1 h2 hne
    unfold convert_currency
    rw [h1]
    dsimp only
    rw [h2]
    dsimp only
    rw [if_neg hne, specConvertAtEnd_eq a rf rt (rate_facts f rf h1).1]

/-- C7 witness: the error-free branches applied to concrete
conversions. -/
theorem spec_c7_witness :
    convert_currency ⟨100, 0⟩ "EUR" "NOK" =
      .ok (specConvertAtEnd ⟨100, 0⟩ ⟨83, -3⟩ ⟨10, -1⟩) ∧
    convert_currency ⟨5, -1⟩ "SEK" "SEK" = .ok ⟨5, -1⟩ ∧
    convert_currency ⟨1, 0⟩ "XXX" "NOK" =
      .error ("Unsupported source currency: " ++ "XXX") :=
  ⟨spec_c7.2.2.2.1 ⟨100, 0⟩ "EUR" "NOK" ⟨83, -3⟩ ⟨10, -1⟩ (by decide) (by decide)
      (by decide),
   spec_c7.2.2.1 ⟨5, -1⟩ "SEK" ⟨10, -1⟩ (by decide),
   spec_c7.1 ⟨1, 0⟩ "XXX" "NOK" (by decide)⟩

/-- C6 witness: the general statement applied to the concrete 50 USD
transfer against a 200 NOK cap. -/
theorem spec_c6_witness :
    ∃ msg, validate_amount_with_currency_conversion "50" "USD" "NOK" ⟨200, 0⟩ =
        (false, none, msg) ∧
      containsStr (decToString (quantizeHalfEven2 ⟨50, 0⟩) ++ " " ++ "USD") msg ∧
      containsStr (decToString ⟨50000, -2⟩ ++ " " ++ "NOK") msg :=
  spec_c6.1 "50" "USD" "NOK" ⟨200, 0⟩ ⟨50, 0⟩ ⟨50000, -2⟩ (by decide) (by decide)
    (by rfl) (by decide)

lemma digit_facts : ∀ d : Nat, d < 10 →
    sepChar (digitChar d) = false ∧ (digitChar d).isDigit = true ∧
    (digitChar d).toNat - 48 = d := by decide

lemma validate_digitsToString (ds : List Nat) (h11 : ds.length = 11)
    (hd : ∀ d ∈ ds, d < 10) :
    validate_norwegian_account_number (digitsToString ds) =
      (expectedCheckDigit (ds.take 10) == ds.getD 10 0) := by
  have hdata : (digitsToString ds).data = ds.map digitChar := rfl
  have hfil : (ds.map digitChar).filter (fun c => !sepChar c) = ds.map digitChar := by
    rw [List.filter_eq_self]
    intro c hc
    obtain ⟨d, hdm, rfl⟩ := List.mem_map.mp hc
    simp [(digit_facts d (hd d hdm)).1]
  have hall : (ds.map digitChar).all Char.isDigit = true := by
    rw [List.all_eq_true]
    intro c hc
    obtain ⟨d, hdm, rfl⟩ := List.mem_map.mp hc
    exact (digit_facts d (hd d hdm)).2.1
  have hback : (ds.map digitChar).map (fun c => c.toNat - 48) = ds := by
    rw [List.map_map]
    calc ds.map ((fun c => c.toNat - 48) ∘ digitChar) = ds.map id :=
          List.map_congr_left (fun a ha => (digit_facts a (hd a ha)).2.2)
      _ = ds := List.map_id ds
  simp only [validate_norwegian_account_number, hdata, hfil, hall, hback,
    List.length_map, h11]
  rfl

lemma weightedSum_set : ∀ (i : Nat) (l ws : List Nat) (b : Nat),
    i < l.length → i < ws.length →
    weightedSum (l.set i b) ws + l.getD i 0 * ws.getD i 0 =
      weightedSum l ws + b * ws.getD i 0 := by
  intro i
  induction i with
  | zero =>
    intro l ws b hl hw
    cases l with
    | nil => simp at hl
    | cons x l' =>
      cases ws with
      | nil => simp at hw
      | cons w ws' =>
        simp only [List.set, weightedSum, List.zipWith, List.sum_cons,
          List.getD_cons_zero]
        ring
  | succ i ih =>
    intro l ws b hl hw
    cases l with
    | nil => simp at hl
    | cons x l' =>
      cases ws with
      | nil => simp at hw
      | cons w ws' =>
        simp only [List.set, weightedSum, List.zipWith, List.sum_cons,
          List.getD_cons_succ]
        have := ih l' ws' b (by simpa using hl) (by simpa using hw)
        unfold weightedSum at this
        rw [add_assoc, add_assoc, this]

lemma take_set_of_lt (l : List Nat) (i b n : Nat) (h : i < n) :
    (l.set i b).take n = (l.take n).set i b := by
  apply List.ext_getElem?
  intro m
  rw [List.getElem?_take, List.getElem?_set, List.getElem?_set, List.getElem?_take,
    List.length_take]
  by_cases him : i = m
  · subst him
    by_cases hil : i < l.length
    · have hmin : i < min n l.length := by omega
      simp [h, hil, hmin]
    · have hmin : ¬(i < min n l.length) := by omega
      simp [h, hil, hmin]
  · by_cases hmn : m < n <;> simp [him, hmn]

lemma take_set_of_le (l : List Nat) (i b n : Nat) (h : n ≤ i) :
    (l.set i b).take n = l.take n := by
  apply List.ext_getElem?
  intro m
  rw [List.getElem?_take, List.getElem?_take]
  by_cases hmn : m < n
  · rw [if_pos hmn, if_pos hmn, List.getElem?_set_ne (by omega)]
  · rw [if_neg hmn, if_neg hmn]

lemma getD_take (l : List Nat) (i n : Nat) (h : i < n) :
    (l.take n).getD i 0 = l.getD i 0 := by
  rw [List.getD_eq_getElem?_getD, List.getD_eq_getElem?_getD, List.getElem?_take,
    if_pos h]

lemma getD_set_ne (l : List Nat) (i j b : Nat) (h : i ≠ j) :
    (l.set i b).getD j 0 = l.getD j 0 := by
  rw [List.getD_eq_getElem?_getD, List.getD_eq_getElem?_getD,
    List.getElem?_set_ne h]

lemma getD_set_self (l : List Nat) (i b : Nat) (h : i < l.length) :
    (l.set i b).getD i 0 = b := by
  rw [List.getD_eq_getElem?_getD, List.getElem?_set_self h]
  rfl

lemma getD_mem (l : List Nat) (i : Nat) (h : i < l.length) : l.getD i 0 ∈ l := by
  rw [List.getD_eq_getElem?_getD, List.getElem?_eq_getElem h]
  exact List.getElem_mem h

lemma remainder_ne (C C' a b w : Nat) (hw : w ∈ weights) (ha : a < 10)
    (hb : b < 10) (hne : b ≠ a) (hcs : C' + a * w = C + b * w) :
    ¬(C % 11 = C' % 11) := by
  have hcases : w = 5 ∨ w = 4 ∨ w = 3 ∨ w = 2 ∨ w = 7 ∨ w = 6 := by
    simp [weights] at hw
    tauto
  rcases hcases with rfl | rfl | rfl | rfl | rfl | rfl <;> omega

/-- C4 (amended): every 11-digit string whose check digit matches the
weighted modulo-11 checksum is accepted; mutating the check digit is
always rejected, and mutating one of the first ten digits is rejected
exactly unless both the old and the new weighted remainders are below 2
(remainders 0 and 1 share check digit 0, so such mutations are still
accepted). -/
theorem spec_c4 :
    (∀ ds : List Nat, ds.length = 11 → (∀ d ∈ ds, d < 10) →
      expectedCheckDigit (ds.take 10) = ds.getD 10 0 →
      validate_norwegian_account_number (digitsToString ds) = true) ∧
    (∀ (ds : List Nat) (i b : Nat), ds.length = 11 → (∀ d ∈ ds, d < 10) →
      i < 11 → b < 10 → b ≠ ds.getD i 0 →
      validate_norwegian_account_number (digitsToString ds) = true →
      (validate_norwegian_account_number (digitsToString (ds.set i b)) = true ↔
        (i < 10 ∧ checksum (ds.take 10) % 11 < 2 ∧
          checksum ((ds.set i b).take 10) % 11 < 2))) := by
  constructor
  · intro ds h11 hd hchk
    rw [validate_digitsToString ds h11 hd, beq_iff_eq]
    exact hchk
  · intro ds i b h11 hd hi hb hne hv
    have h11' : (ds.set i b).length = 11 := by simp [h11]
    have hd' : ∀ d ∈ ds.set i b, d < 10 := by
      intro d hdm
      rcases List.mem_or_eq_of_mem_set hdm with h | rfl
      · exact hd d h
      · exact hb
    rw [validate_digitsToString ds h11 hd, beq_iff_eq] at hv
    rw [validate_digitsToString _ h11' hd', beq_iff_eq]
    by_cases hi10 : i < 10
    · have htake : (ds.set i b).take 10 = (ds.take 10).set i b :=
        take_set_of_lt ds i b 10 hi10
      have hg10 : (ds.set i b).getD 10 0 = ds.getD 10 0 :=
        getD_set_ne ds i 10 b (by omega)
      have hlen10 : (ds.take 10).length = 10 := by simp [h11]
      have hwl : weights.length = 10 := rfl
      have hgtake : (ds.take 10).getD i 0 = ds.getD i 0 := getD_take ds i 10 hi10
      have ha : ds.getD i 0 < 10 := hd _ (getD_mem ds i (by omega))
      have hwmem : weights.getD i 0 ∈ weights :=
        getD_mem weights i (by rw [hwl]; exact hi10)
      have hcs := weightedSum_set i (ds.take 10) weights b (by omega)
        (by rw [hwl]; exact hi10)
      rw [hgtake] at hcs
      have hrne : ¬(checksum (ds.take 10) % 11 =
          checksum ((ds.take 10).set i b) % 11) :=
        remainder_ne _ _ (ds.getD i 0) b (weights.getD i 0) hwmem ha hb hne hcs
      rw [hg10, htake]
      simp only [expectedCheckDigit] at hv ⊢
      have hb1 : checksum (ds.take 10) % 11 < 11 := Nat.mod_lt _ (by norm_num)
      have hb2 : checksum ((ds.take 10).set i b) % 11 < 11 :=
        Nat.mod_lt _ (by norm_num)
      constructor
      · intro h
        refine ⟨hi10, ?_, ?_⟩
        · split_ifs at h hv <;> omega
        · split_ifs at h hv <;> omega
      · intro ⟨_, h1, h2⟩
        split_ifs at hv ⊢
        all_goals omega
    · have hieq : i = 10 := by omega
      subst hieq
      have htake : (ds.set 10 b).take 10 = ds.take 10 :=
        take_set_of_le ds 10 b 10 (by omega)
      have hg : (ds.set 10 b).getD 10 0 = b := getD_set_self ds 10 b (by omega)
      rw [htake, hg, hv]
      simp only [show ¬(10 < 10) from by omega, false_and, iff_false]
      exact fun h => hne h.symm

/-- C4 witness: the valid number 1234.56.78903 (as plain digits) is
accepted, and a mutation shifting the weighted remainder from 0 to 1
(first digit of 00000000000 changed to 9) is still accepted, matching
the amended equivalence. -/
theorem spec_c4_witness :
    validate_norwegian_account_number (digitsToString [1, 2, 3, 4, 5, 6, 7, 8, 9, 0, 3]) = true ∧
    validate_norwegian_account_number
      (digitsToString (List.set [0, 0, 0, 0, 0, 0, 0, 0, 0, 0, 0] 0 9)) = true :=
  ⟨spec_c4.1 _ (by decide) (by decide) (by decide),
   (spec_c4.2 [0, 0, 0, 0, 0, 0, 0, 0, 0, 0, 0] 0 9 (by decide) (by decide)
      (by decide) (by decide) (by decide) (by decide)).mpr (by decide)⟩

lemma shape_convertInline (a : Account) : shape (convertInline a) = shape a := by
  unfold convertInline
  cases h : a.balance with
  | none => rfl
  | some v => cases v <;> rfl

lemma accountNumber_convertInline (a : Account) :
    (convertInline a).accountNumber = a.accountNumber := by
  unfold convertInline
  cases h : a.balance with
  | none => rfl
  | some v => cases v <;> rfl

lemma balance_convertInline_none (a : Account) (h : a.balance = none) :
    (convertInline a).balance = none := by
  unfold convertInline
  rw [h]
  exact h

lemma shape_mergeBalances (nums : List String) (bals : List (String × BalResp))
    (a : Account) : shape (mergeBalances nums bals a) = shape a := by
  unfold mergeBalances
  cases h : a.accountNumber with
  | none => rfl
  | some n =>
    dsimp only
    split_ifs with h1
    · rfl
    · cases hl : bals.lookup n with
      | none => rfl
      | some r =>
        dsimp only
        rcases hb : r.accountBalance with _ | v
        · rfl
        · simp [shape, h]

lemma mergeBalances_skip (nums : List String) (bals : List (String × BalResp))
    (a : Account)
    (h : a.accountNumber = none ∨
      ∃ n, a.accountNumber = some n ∧ bals.lookup n = none) :
    mergeBalances nums bals a = a := by
  unfold mergeBalances
  rcases h with h | ⟨n, han, hlk⟩
  · rw [h]
  · rw [han]
    dsimp only
    split_ifs with h1
    · rfl
    · rw [hlk]

lemma gab_ok_lookup (oracle : String → FetchOutcome) :
    ∀ (nums : List String) (bals : List (String × BalResp)) (n : String),
    get_account_balances oracle nums = .ok bals →
    (∀ r, oracle n ≠ .ok r) → bals.lookup n = none := by
  intro nums
  induction nums with
  | nil =>
    intro bals n h hn
    cases h
    rfl
  | cons x rest ih =>
    intro bals n h hn
    unfold get_account_balances at h
    cases hx : oracle x with
    | ok r =>
      rw [hx] at h
      cases hrest : get_account_balances oracle rest with
      | error e => rw [hrest] at h; cases h
      | ok tl =>
        rw [hrest] at h
        cases h
        have hnx : ¬(n == x) = true := by
          intro hbeq
          exact hn r ((beq_iff_eq.mp hbeq) ▸ hx)
        simp only [List.lookup, hnx]
        exact ih tl n hrest hn
    | apiErr m =>
      rw [hx] at h
      exact ih bals n h hn
    | otherErr m => rw [hx] at h; cases h

lemma gab_ok_of_noAbort (oracle : String → FetchOutcome) :
    ∀ nums : List String, (∀ n ∈ nums, ∀ m, oracle n ≠ .otherErr m) →
    ∃ bals, get_account_balances oracle nums = .ok bals := by
  intro nums
  induction nums with
  | nil => exact fun _ => ⟨[], rfl⟩
  | cons x rest ih =>
    intro h
    obtain ⟨tl, htl⟩ := ih (fun n hn m => h n (List.mem_cons_of_mem x hn) m)
    unfold get_account_balances
    cases hx : oracle x with
    | ok r => exact ⟨(x, r) :: tl, by rw [htl]; rfl⟩
    | apiErr m => exact ⟨tl, htl⟩
    | otherErr m => exact absurd hx (h x (List.mem_cons_self x rest) m)

lemma gab_error_of_abort (oracle : String → FetchOutcome) :
    ∀ nums : List String, (∃ n ∈ nums, ∃ m, oracle n = .otherErr m) →
    ∃ e, get_account_balances oracle nums = .error e := by
  intro nums
  induction nums with
  | nil => rintro ⟨n, hn, _⟩; cases hn
  | cons x rest ih =>
    rintro ⟨n, hn, m, hm⟩
    unfold get_account_balances
    cases hx : oracle x with
    | ok r =>
      have hnx : n ≠ x := fun he => by rw [he, hx] at hm; cases hm
      obtain ⟨e, he⟩ := ih ⟨n, by
        rcases List.mem_cons.mp hn with h | h
        · exact absurd h hnx
        · exact h, m, hm⟩
      exact ⟨e, by rw [he]; rfl⟩
    | apiErr m' =>
      have hnx : n ≠ x := fun he => by rw [he, hx] at hm; cases hm
      exact ih ⟨n, by
        rcases List.mem_cons.mp hn with h | h
        · exact absurd h hnx
        · exact h, m, hm⟩
    | otherErr m' => exact ⟨m', rfl⟩

/-- C1 (amended): when the accounts fetch succeeds, the poll always
succeeds and the snapshot keeps every filtered account with all
non-balance fields intact; an account whose per-account balance fetch
failed with an API error simply keeps no balance.  Such per-account
failures are swallowed inside the client, so unless the enrichment
phase itself raises a non-API exception, `balance_fetch_partial` is
`false` and `balance_fetch_errors` is absent; if the phase does raise,
`balance_fetch_partial = true` with non-empty errors. -/
theorem spec_c1_amended :
    ∀ (now : Nat) (selected : List String) (accounts : List Account)
      (oracle : String → FetchOutcome),
    ∃ snap,
      (update_data ⟨none⟩ now selected (.ok accounts) oracle).result = .ok snap ∧
      snap.accounts.map shape = (filterSelected selected accounts).map shape ∧
      ((∀ n ∈ enrichNums (filterSelected selected accounts), ∀ m,
          oracle n ≠ .otherErr m) →
        snap.balance_fetch_partial = false ∧ snap.balance_fetch_errors = none ∧
        (∀ a ∈ filterSelected selected accounts, ∀ n, a.accountNumber = some n →
          (∀ r, oracle n ≠ .ok r) → a.balance = none →
          ∃ b ∈ snap.accounts, b.accountNumber = some n ∧ b.balance = none)) ∧
      ((∃ n ∈ enrichNums (filterSelected selected accounts), ∃ m,
          oracle n = .otherErr m) →
        snap.balance_fetch_partial = true ∧ snap.balance_fetch_errors ≠ none) := by
  intro now selected accounts oracle
  have hupd : (update_data ⟨none⟩ now selected (.ok accounts) oracle).result =
      .ok { accounts := (enrich oracle (filterSelected selected accounts)).1
            last_update := now
            balance_fetch_errors :=
              if (enrich oracle (filterSelected selected accounts)).2.1.isEmpty
              then none
              else some (enrich oracle (filterSelected selected accounts)).2.1
            balance_fetch_partial :=
              !(enrich oracle (filterSelected selected accounts)).2.1.isEmpty } := rfl
  refine ⟨_, hupd, ?_, ?_, ?_⟩
  · -- shapes preserved in every outcome of the enrichment phase
    by_cases hnil : (enrichNums (filterSelected selected accounts)).isEmpty
    · have he : enrich oracle (filterSelected selected accounts) =
          ((filterSelected selected accounts).map convertInline, [], 0) := by
        simp [enrich, hnil]
      rw [he, List.map_map]
      exact List.map_congr_left (fun a _ => shape_convertInline a)
    · cases hgab : get_account_balances oracle
          (enrichNums (filterSelected selected accounts)) with
      | error e =>
        have he : enrich oracle (filterSelected selected accounts) =
            ((filterSelected selected accounts).map convertInline, [e],
              balCallCount oracle (enrichNums (filterSelected selected accounts))) := by
          simp [enrich, hnil, hgab]
        rw [he, List.map_map]
        exact List.map_congr_left (fun a _ => shape_convertInline a)
      | ok bals =>
        have he : enrich oracle (filterSelected selected accounts) =
            (((filterSelected selected accounts).map convertInline).map
               (mergeBalances (enrichNums (filterSelected selected accounts)) bals),
             [], (enrichNums (filterSelected selected accounts)).length) := by
          simp [enrich, hnil, hgab]
        rw [he, List.map_map, List.map_map]
        exact List.map_congr_left (fun a _ => by
          simp only [Function.comp]
          rw [shape_mergeBalances, shape_convertInline])
  · -- no escaping exception: clean snapshot, failed accounts keep no balance
    intro hno
    by_cases hnil : (enrichNums (filterSelected selected accounts)).isEmpty
    · have he : enrich oracle (filterSelected selected accounts) =
          ((filterSelected selected accounts).map convertInline, [], 0) := by
        simp [enrich, hnil]
      rw [he]
      refine ⟨rfl, rfl, ?_⟩
      intro a ha n han _ hbal
      exact ⟨convertInline a, List.mem_map_of_mem convertInline ha,
        (accountNumber_convertInline a).trans han,
        balance_convertInline_none a hbal⟩
    · obtain ⟨bals, hgab⟩ := gab_ok_of_noAbort oracle _ hno
      have he : enrich oracle (filterSelected selected accounts) =
          (((filterSelected selected accounts).map convertInline).map
             (mergeBalances (enrichNums (filterSelected selected accounts)) bals),
           [], (enrichNums (filterSelected selected accounts)).length) := by
        simp [enrich, hnil, hgab]
      rw [he]
      refine ⟨rfl, rfl, ?_⟩
      intro a ha n han hnok hbal
      have hlk : bals.lookup n = none := gab_ok_lookup oracle _ bals n hgab hnok
      have hmerge : mergeBalances (enrichNums (filterSelected selected accounts))
          bals (convertInline a) = convertInline a :=
        mergeBalances_skip _ _ _ (Or.inr ⟨n,
          (accountNumber_convertInline a).trans han, hlk⟩)
      refine ⟨mergeBalances (enrichNums (filterSelected selected accounts)) bals
          (convertInline a),
        List.mem_map_of_mem _ (List.mem_map_of_mem convertInline ha), ?_, ?_⟩
      · rw [hmerge, accountNumber_convertInline a, han]
      · rw [hmerge]
        exact balance_convertInline_none a hbal
  · -- an escaping exception marks the snapshot partial with errors
    intro habort
    obtain ⟨e, hgab⟩ := gab_error_of_abort oracle _ habort
    have hnil : ¬(enrichNums (filterSelected selected accounts)).isEmpty := by
      obtain ⟨n, hn, _⟩ := habort
      intro hempty
      rw [List.isEmpty_iff.mp hempty] at hn
      cases hn
    have he : enrich oracle (filterSelected selected accounts) =
        ((filterSelected selected accounts).map convertInline, [e],
          balCallCount oracle (enrichNums (filterSelected selected accounts))) := by
      simp [enrich, hnil, hgab]
    rw [he]
    exact ⟨rfl, by simp⟩

/-- C1 witness: a poll over one account whose balance fetch fails with
an API error: the snapshot is clean (`partial = false`, no errors) and
the account is present without a balance. -/
theorem spec_c1_witness :
    ∃ snap,
      (update_data ⟨none⟩ 0 []
          (.ok [⟨some "111", "", "acc", none, none⟩])
          (fun _ => .apiErr "boom")).result = .ok snap ∧
      snap.balance_fetch_partial = false ∧ snap.balance_fetch_errors = none ∧
      ∃ b ∈ snap.accounts, b.accountNumber = some "111" ∧ b.balance = none := by
  obtain ⟨snap, h1, _, h3, _⟩ :=
    spec_c1_amended 0 [] [⟨some "111", "", "acc", none, none⟩]
      (fun _ => .apiErr "boom")
  obtain ⟨hp, herr, hacc⟩ := h3 (fun n _ m h => nomatch h)
  exact ⟨snap, h1, hp, herr,
    hacc ⟨some "111", "", "acc", none, none⟩ (by simp [filterSelected]) "111" rfl
      (fun r h => nomatch h) rfl⟩

/-- C1 counterexample: the same concrete poll, evaluated: the claim
demands `balance_fetch_partial = true` with non-empty errors after a
failed per-account balance fetch, but the snapshot has
`balance_fetch_partial = false` and no `balance_fetch_errors` key. -/
theorem spec_c1_counterexample :
    (update_data ⟨none⟩ 0 [] (.ok [⟨some "111", "", "acc", none, none⟩])
        (fun _ => .apiErr "boom")).result =
      .ok { accounts := [⟨some "111", "", "acc", none, none⟩]
            last_update := 0
            balance_fetch_errors := none
            balance_fetch_partial := false } ∧
    (fun _ => FetchOutcome.apiErr "boom") "111" = .apiErr "boom" :=
  ⟨by rfl, rfl⟩

lemma mergeAll_forall₂ (bals : List (String × BalResp)) :
    ∀ (l l' : List Account), mergeAll bals l = .ok l' →
    List.Forall₂ (fun a a' => refreshMergeAcc bals a = .ok a') l l' := by
  intro l
  induction l with
  | nil =>
    intro l' h
    cases h
    exact List.Forall₂.nil
  | cons a rest ih =>
    intro l' h
    unfold mergeAll at h
    cases hm : refreshMergeAcc bals a with
    | error e => rw [hm] at h; cases h
    | ok a' =>
      rw [hm] at h
      cases hrest : mergeAll bals rest with
      | error e => rw [hrest] at h; cases h
      | ok tl =>
        rw [hrest] at h
        cases h
        exact List.Forall₂.cons hm (ih tl hrest)

lemma refreshMergeAcc_ok (bals : List (String × BalResp)) (a a' : Account)
    (h : refreshMergeAcc bals a = .ok a') :
    shape a' = shape a ∧
    ((a.accountNumber = none ∨
      ∃ n, a.accountNumber = some n ∧ bals.lookup n = none) → a' = a) ∧
    (∀ n r, a.accountNumber = some n → bals.lookup n = some r →
      ∃ cur, a'.balance = some (.obj r.accountBalance cur)) := by
  unfold refreshMergeAcc at h
  cases han : a.accountNumber with
  | none =>
    rw [han] at h
    cases h
    exact ⟨rfl, fun _ => rfl, fun n r h1 _ => nomatch h1⟩
  | some n =>
    rw [han] at h
    dsimp only at h
    cases hlk : bals.lookup n with
    | none =>
      rw [hlk] at h
      cases h
      refine ⟨rfl, fun _ => rfl, fun n' r h1 h2 => ?_⟩
      cases h1
      rw [hlk] at h2
      cases h2
    | some r =>
      rw [hlk] at h
      cases hc : refreshCurrency a with
      | error e => rw [hc] at h; cases h
      | ok cur =>
        rw [hc] at h
        cases h
        refine ⟨by simp [shape, han], ?_, ?_⟩
        · rintro (h1 | ⟨n', h1, h2⟩)
          · cases h1
          · cases h1
            rw [hlk] at h2
            cases h2
        · intro n' r' h1 h2
          cases h1
          rw [hlk] at h2
          cases h2
          exact ⟨cur, rfl⟩

lemma mergeAll_shape (bals : List (String × BalResp)) :
    ∀ (l l' : List Account),
    List.Forall₂ (fun a a' => refreshMergeAcc bals a = .ok a') l l' →
    l'.map shape = l.map shape := by
  intro l l' h
  induction h with
  | nil => rfl
  | cons h1 _ ih => simp [List.map_cons, (refreshMergeAcc_ok _ _ _ h1).1, ih]

lemma refresh_none_full (oracle : String → FetchOutcome) (x : String)
    (rest : List String) (now : Nat) :
    refresh_account_balances oracle (x :: rest) none now =
      .ok (none, false, true) := rfl

lemma refresh_fullPoll_false (oracle : String → FetchOutcome)
    (nums : List String) (snap : Snapshot) (now : Nat)
    (x : Option Snapshot × Bool × Bool) (hne : nums ≠ [])
    (h : refresh_account_balances oracle nums (some snap) now = .ok x) :
    x.2.2 = false := by
  have hie : nums.isEmpty = false := by
    cases nums with
    | nil => exact absurd rfl hne
    | cons _ _ => rfl
  unfold refresh_account_balances at h
  rw [if_neg (by simp [hie])] at h
  dsimp only at h
  cases hgab : get_account_balances oracle nums with
  | error e => rw [hgab] at h; cases h
  | ok bals =>
    rw [hgab] at h
    dsimp only at h
    cases hma : mergeAll bals snap.accounts with
    | error e => rw [hma] at h; cases h
    | ok accounts' =>
      rw [hma] at h
      dsimp only at h
      by_cases hupd : refreshUpdatedAny bals snap.accounts = true
      · rw [if_pos hupd] at h
        cases h
        rfl
      · rw [if_neg hupd] at h
        cases h
        rfl

/-- C8 (amended): a targeted refresh over a non-empty number list with
an existing snapshot never requests a full poll when it returns; it
replaces exactly the balance of accounts whose number is in the fetched
mapping, leaving every other account, every non-balance field and the
account set unchanged.  The snapshot is republished with
`balance_fetch_partial = true` and a fresh `last_update` exactly when
at least one balance was replaced; otherwise the data is left entirely
unchanged.  With no snapshot, the operation performs a full poll
request instead. -/
theorem spec_c8_amended :
    (∀ (oracle : String → FetchOutcome) (nums : List String) (snap : Snapshot)
        (now : Nat) (d : Option Snapshot) (pub fullPoll : Bool),
      nums ≠ [] →
      refresh_account_balances oracle nums (some snap) now = .ok (d, pub, fullPoll) →
      fullPoll = false ∧
      ∃ snap' bals, d = some snap' ∧
        get_account_balances oracle nums = .ok bals ∧
        snap'.accounts.map shape = snap.accounts.map shape ∧
        List.Forall₂ (fun a a' =>
          ((a.accountNumber = none ∨
            ∃ n, a.accountNumber = some n ∧ bals.lookup n = none) → a' = a) ∧
          (∀ n r, a.accountNumber = some n → bals.lookup n = some r →
            ∃ cur, a'.balance = some (.obj r.accountBalance cur)))
          snap.accounts snap'.accounts ∧
        (pub = true → snap'.balance_fetch_partial = true ∧
          snap'.last_update = now ∧
          snap'.balance_fetch_errors = snap.balance_fetch_errors) ∧
        (pub = false → snap' = snap) ∧
        pub = refreshUpdatedAny bals snap.accounts) ∧
    (∀ (oracle : String → FetchOutcome) (x : String) (rest : List String)
        (now : Nat),
      refresh_account_balances oracle (x :: rest) none now =
        .ok (none, false, true)) := by
  constructor
  · intro oracle nums snap now d pub fp hne h
    have hie : nums.isEmpty = false := by
      cases nums with
      | nil => exact absurd rfl hne
      | cons _ _ => rfl
    unfold refresh_account_balances at h
    rw [if_neg (by simp [hie])] at h
    dsimp only at h
    cases hgab : get_account_balances oracle nums with
    | error e => rw [hgab] at h; cases h
    | ok bals =>
      rw [hgab] at h
      dsimp only at h
      cases hma : mergeAll bals snap.accounts with
      | error e => rw [hma] at h; cases h
      | ok accounts' =>
        rw [hma] at h
        dsimp only at h
        have hf2 := mergeAll_forall₂ bals snap.accounts accounts' hma
        by_cases hupd : refreshUpdatedAny bals snap.accounts = true
        · rw [if_pos hupd] at h
          cases h
          refine ⟨rfl, _, bals, rfl, rfl, ?_, ?_, ?_, ?_, ?_⟩
          · exact mergeAll_shape bals snap.accounts accounts' hf2
          · exact hf2.imp (fun a b h1 =>
              ⟨(refreshMergeAcc_ok bals a b h1).2.1,
               (refreshMergeAcc_ok bals a b h1).2.2⟩)
          · exact fun _ => ⟨rfl, rfl, rfl⟩
          · intro h1
            cases h1
          · exact hupd.symm
        · rw [if_neg hupd] at h
          cases h
          have hnone : ∀ a ∈ snap.accounts, ∀ n, a.accountNumber = some n →
              bals.lookup n = none := by
            intro a ha n han
            by_contra hl
            apply hupd
            unfold refreshUpdatedAny
            rw [List.any_eq_true]
            refine ⟨a, ha, ?_⟩
            rw [han]
            simpa using Option.ne_none_iff_isSome.mp hl
          refine ⟨rfl, snap, bals, rfl, rfl, rfl, ?_, ?_, fun _ => rfl, ?_⟩
          · rw [List.forall₂_same]
            intro a ha
            refine ⟨fun _ => rfl, fun n r h1 h2 => ?_⟩
            rw [hnone a ha n h1] at h2
            cases h2
          · intro h1
            cases h1
          · exact (Bool.not_eq_true _).mp hupd |>.symm
  · intro oracle x rest now
    exact refresh_none_full oracle x rest now

/-- C8 witness: a refresh of one account with a successful balance
fetch, and the no-snapshot full-poll fallback, at concrete inputs. -/
theorem spec_c8_witness :
    (∃ snap' bals,
      (some { accounts := [⟨some "111", "", "acc", none,
                some (.obj (some "42.00") "NOK")⟩]
              last_update := 7
              balance_fetch_errors := none
              balance_fetch_partial := true } : Option Snapshot) = some snap' ∧
      get_account_balances (fun _ => .ok ⟨some "42.00"⟩) ["111"] = .ok bals ∧
      snap'.accounts.map shape =
        ([⟨some "111", "", "acc", none, none⟩] : List Account).map shape ∧
      List.Forall₂ (fun a a' =>
        ((a.accountNumber = none ∨
          ∃ n, a.accountNumber = some n ∧ bals.lookup n = none) → a' = a) ∧
        (∀ n r, a.accountNumber = some n → bals.lookup n = some r →
          ∃ cur, a'.balance = some (.obj r.accountBalance cur)))
        [⟨some "111", "", "acc", none, none⟩] snap'.accounts ∧
      (true = true → snap'.balance_fetch_partial = true ∧
        snap'.last_update = 7 ∧ snap'.balance_fetch_errors = none) ∧
      (true = false → snap' = ⟨[⟨some "111", "", "acc", none, none⟩], 0, none, false⟩) ∧
      true = refreshUpdatedAny bals [⟨some "111", "", "acc", none, none⟩]) ∧
    refresh_account_balances (fun _ => .ok ⟨some "42.00"⟩) ["111"] none 7 =
      .ok (none, false, true) := by
  have h := (spec_c8_amended.1 (fun _ => .ok ⟨some "42.00"⟩) ["111"]
    ⟨[⟨some "111", "", "acc", none, none⟩], 0, none, false⟩ 7
    (some { accounts := [⟨some "111", "", "acc", none,
              some (.obj (some "42.00") "NOK")⟩]
            last_update := 7
            balance_fetch_errors := none
            balance_fetch_partial := true })
    true false (by decide) (by rfl)).2
  exact ⟨h, spec_c8_amended.2 (fun _ => .ok ⟨some "42.00"⟩) "111" [] 7⟩

/-- C8 counterexample: a targeted refresh over a non-empty list with an
existing snapshot whose only balance fetch fails with an API error: the
fetched mapping is empty, nothing is updated, and the snapshot is left
with `balance_fetch_partial = false` — contradicting the claim that
the resulting snapshot is always marked `balance_fetch_partial =
true`. -/
theorem spec_c8_counterexample :
    refresh_account_balances (fun _ => .apiErr "boom") ["111"]
      (some ⟨[⟨some "111", "", "acc", none, none⟩], 0, none, false⟩) 7 =
      .ok (some ⟨[⟨some "111", "", "acc", none, none⟩], 0, none, false⟩,
        false, false) ∧
    Snapshot.balance_fetch_partial
      ⟨[⟨some "111", "", "acc", none, none⟩], 0, none, false⟩ = false :=
  ⟨by rfl, rfl⟩

/-- C3 (amended): a transfer whose API call succeeds issues exactly one
targeted refresh of the two involved accounts and returns the
transfer's result; when a snapshot exists, exactly one full poll is
requested if and only if the targeted refresh throws; when no snapshot
exists, the targeted refresh itself degrades to exactly one full-poll
request without throwing. -/
theorem spec_c3_amended :
    ∀ (oracle : String → FetchOutcome) (res : String) (data : Option Snapshot)
      (now : Nat) (fromAccount toAccount : String),
    (async_transfer_money oracle (.ok res) data now fromAccount toAccount).1 =
      .ok res ∧
    (async_transfer_money oracle (.ok res) data now fromAccount toAccount).2.1 = 1 ∧
    (∀ snap, data = some snap →
      ((async_transfer_money oracle (.ok res) data now fromAccount toAccount).2.2 = 1 ↔
        ∃ e, refresh_account_balances oracle [fromAccount, toAccount]
          (some snap) now = .error e) ∧
      ((async_transfer_money oracle (.ok res) data now fromAccount toAccount).2.2 = 0 ↔
        ∃ x, refresh_account_balances oracle [fromAccount, toAccount]
          (some snap) now = .ok x)) ∧
    (data = none →
      (async_transfer_money oracle (.ok res) data now fromAccount toAccount).2.2 = 1 ∧
      refresh_account_balances oracle [fromAccount, toAccount] none now =
        .ok (none, false, true)) := by
  intro oracle res data now f t
  unfold async_transfer_money
  dsimp only
  cases href : refresh_account_balances oracle [f, t] data now with
  | error e =>
    refine ⟨rfl, rfl, ?_, ?_⟩
    · intro snap hd
      subst hd
      constructor
      · exact ⟨fun _ => ⟨e, href⟩, fun _ => rfl⟩
      · constructor
        · intro h1
          cases h1
        · rintro ⟨x, hx⟩
          rw [href] at hx
          cases hx
    · intro hd
      subst hd
      rw [refresh_none_full oracle f [t] now] at href
      cases href
  | ok x =>
    obtain ⟨d, p, fp⟩ := x
    refine ⟨rfl, rfl, ?_, ?_⟩
    · intro snap hd
      subst hd
      have hfp : fp = false :=
        refresh_fullPoll_false oracle [f, t] snap now (d, p, fp) (by simp) href
      subst hfp
      constructor
      · constructor
        · intro h1
          simp at h1
        · rintro ⟨e, he⟩
          rw [href] at he
          cases he
      · exact ⟨fun _ => ⟨(d, p, false), href⟩, fun _ => rfl⟩
    · intro hd
      subst hd
      rw [refresh_none_full oracle f [t] now] at href
      cases href
      exact ⟨rfl, refresh_none_full oracle f [t] now⟩

/-- C3 witness: a successful transfer with an existing snapshot does a
single targeted refresh and no full poll. -/
theorem spec_c3_witness :
    (async_transfer_money (fun _ => .ok ⟨some "42.00"⟩) (.ok "r")
      (some ⟨[⟨some "111", "", "acc", none, none⟩], 0, none, false⟩) 7
      "111" "222").1 = .ok "r" ∧
    (async_transfer_money (fun _ => .ok ⟨some "42.00"⟩) (.ok "r")
      (some ⟨[⟨some "111", "", "acc", none, none⟩], 0, none, false⟩) 7
      "111" "222").2.1 = 1 ∧
    (async_transfer_money (fun _ => .ok ⟨some "42.00"⟩) (.ok "r")
      (some ⟨[⟨some "111", "", "acc", none, none⟩], 0, none, false⟩) 7
      "111" "222").2.2 = 0 := by
  obtain ⟨h1, h2, h3, _⟩ := spec_c3_amended (fun _ => .ok ⟨some "42.00"⟩) "r"
    (some ⟨[⟨some "111", "", "acc", none, none⟩], 0, none, false⟩) 7 "111" "222"
  exact ⟨h1, h2, ((h3 _ rfl).2).mpr ⟨_, by rfl⟩⟩

/-- C3 counterexample: with no snapshot in place, a successful transfer
still triggers exactly one full-poll request even though the targeted
refresh returned without throwing — falsifying the claimed "full poll
iff the targeted refresh throws". -/
theorem spec_c3_counterexample :
    async_transfer_money (fun _ => .ok ⟨some "42.00"⟩) (.ok "r") none 7 "a" "b" =
      (.ok "r", 1, 1) ∧
    refresh_account_balances (fun _ => .ok ⟨some "42.00"⟩) ["a", "b"] none 7 =
      .ok (none, false, true) :=
  ⟨by rfl, by rfl⟩

/-- C2: while the current time is before the rate-limit backoff
deadline, `_async_update_data` fails immediately with the synthetic
backoff error and performs zero HTTP calls, leaving the state
unchanged; and after a rate-limit response carrying `Retry-After: 120`
at time `t0`, the backoff deadline is `t0 + 120` and every refresh
before that instant produces exactly that one synthetic error and no
HTTP call. -/
theorem spec_c2 :
    (∀ (s : CoordState) (t now : Nat) (selected : List String)
        (ar : AccountsResult) (oracle : String → FetchOutcome),
      s.rateLimitBackoffUntil = some t → now < t →
      update_data s now selected ar oracle =
        { state := s, result := .error "Rate limited, will retry later",
          httpCalls := 0 }) ∧
    (∀ (t0 : Nat) (selected : List String) (oracle : String → FetchOutcome),
      (update_data ⟨none⟩ t0 selected (.rateLimit "120" "") oracle).state =
        ⟨some (t0 + 120)⟩ ∧
      (update_data ⟨none⟩ t0 selected (.rateLimit "120" "") oracle).httpCalls = 1 ∧
      (∀ (t' : Nat) (sel' : List String) (ar' : AccountsResult)
          (oracle' : String → FetchOutcome), t' < t0 + 120 →
        update_data ⟨some (t0 + 120)⟩ t' sel' ar' oracle' =
          { state := ⟨some (t0 + 120)⟩,
            result := .error "Rate limited, will retry later",
            httpCalls := 0 })) := by
  have hblock : ∀ (T now : Nat) (selected : List String) (ar : AccountsResult)
      (oracle : String → FetchOutcome), now < T →
      update_data ⟨some T⟩ now selected ar oracle =
        { state := ⟨some T⟩, result := .error "Rate limited, will retry later",
          httpCalls := 0 } := by
    intro T now selected ar oracle h
    simp [update_data, h]
  constructor
  · intro s t now selected ar oracle h1 h2
    cases s
    cases h1
    exact hblock t now selected ar oracle h2
  · intro t0 selected oracle
    have hparse : parseRetryAfter (rateLimitMessage "120" "") = 120 := by decide
    refine ⟨?_, ?_, fun t' sel' ar' oracle' ht' => hblock _ t' sel' ar' oracle' ht'⟩
    · simp [update_data, hparse]
    · simp [update_data]

/-- C2 witness: the backoff short-circuit and the 120-second window at
concrete times. -/
theorem spec_c2_witness :
    update_data ⟨some 125⟩ 100 [] (.ok []) (fun _ => .apiErr "x") =
      { state := ⟨some 125⟩, result := .error "Rate limited, will retry later",
        httpCalls := 0 } ∧
    (update_data ⟨none⟩ 5 [] (.rateLimit "120" "") (fun _ => .apiErr "x")).state =
      ⟨some 125⟩ ∧
    update_data ⟨some 125⟩ 124 [] (.ok []) (fun _ => .apiErr "x") =
      { state := ⟨some 125⟩, result := .error "Rate limited, will retry later",
        httpCalls := 0 } :=
  ⟨spec_c2.1 ⟨some 125⟩ 125 100 [] (.ok []) (fun _ => .apiErr "x") rfl (by decide),
   (spec_c2.2 5 [] (fun _ => .apiErr "x")).1,
   (spec_c2.2 5 [] (fun _ => .apiErr "x")).2.2 124 [] (.ok [])
     (fun _ => .apiErr "x") (by decide)⟩

lemma ediv_shift (a q p : Int) (hp : 0 < p) (h0 : 0 ≤ a) (h1 : a < p) :
    (a + q * p) / p = q := by
  rw [Int.add_mul_ediv_right _ _ (by omega : p ≠ 0),
    Int.ediv_eq_zero_of_lt h0 h1, zero_add]

lemma quantize_halfUp_eq (n p : Int) (hp : 0 < p) :
    roundHalfUpDiv n p =
      (if n < 0 then -1 else 1) * ((2 * (n.natAbs : Int) + p) / (2 * p)) := by
  have hdm := Int.ediv_add_emod n p
  have hr0 : 0 ≤ n % p := Int.emod_nonneg n (by omega)
  have hrp : n % p < p := Int.emod_lt_of_pos n hp
  simp only [roundHalfUpDiv]
  by_cases hneg : n < 0
  · rw [if_pos hneg]
    have habs : ((n.natAbs : Int)) = -n := by omega
    rw [habs]
    by_cases h1 : 2 * (n % p) ≤ p
    · have hs : (2 * -n + p) / (2 * p) = -(n / p) := by
        rw [show 2 * -n + p = (p - 2 * (n % p)) + (-(n / p)) * (2 * p) by
          linear_combination (2 : ℤ) * hdm]
        exact ediv_shift _ _ _ (by omega) (by omega) (by omega)
      rw [hs]
      by_cases h2 : 2 * (n % p) < p
      · rw [if_pos h2]
        ring
      · rw [if_neg h2, if_neg (by omega), if_neg (by omega)]
        ring
    · have hs : (2 * -n + p) / (2 * p) = -(n / p) - 1 := by
        rw [show 2 * -n + p = (3 * p - 2 * (n % p)) + (-(n / p) - 1) * (2 * p) by
          linear_combination (2 : ℤ) * hdm]
        exact ediv_shift _ _ _ (by omega) (by omega) (by omega)
      rw [hs, if_neg (by omega), if_pos (by omega)]
      ring
  · rw [if_neg hneg]
    have habs : ((n.natAbs : Int)) = n := by omega
    rw [habs]
    by_cases h1 : 2 * (n % p) < p
    · have hs : (2 * n + p) / (2 * p) = n / p := by
        rw [show 2 * n + p = (2 * (n % p) + p) + (n / p) * (2 * p) by
          linear_combination (-2 : ℤ) * hdm]
        exact ediv_shift _ _ _ (by omega) (by omega) (by omega)
      rw [hs, if_pos h1]
      ring
    · have hs : (2 * n + p) / (2 * p) = n / p + 1 := by
        rw [show 2 * n + p = (2 * (n % p) - p) + (n / p + 1) * (2 * p) by
          linear_combination (-2 : ℤ) * hdm]
        exact ediv_shift _ _ _ (by omega) (by omega) (by omega)
      rw [hs]
      by_cases h2 : p < 2 * (n % p)
      · rw [if_neg h1, if_pos h2]
        ring
      · rw [if_neg h1, if_neg h2, if_pos (by omega)]
        ring

lemma quantizeHalfUp2_eq_spec (a : Dec) : quantizeHalfUp2 a = specRoundHalfUp2 a := by
  unfold quantizeHalfUp2 specRoundHalfUp2
  by_cases h : -2 ≤ a.exp
  · rw [if_pos h, if_pos h]
  · rw [if_neg h, if_neg h]
    exact congrArg (fun z => Dec.mk z (-2))
      (quantize_halfUp_eq a.num _ (by positivity))

lemma natToCharsAux_digits : ∀ (fuel n : Nat), n < fuel →
    ∀ c ∈ natToCharsAux fuel n, c.isDigit = true := by
  intro fuel
  induction fuel with
  | zero => intro n h; omega
  | succ fuel ih =>
    intro n h c hc
    unfold natToCharsAux at hc
    by_cases h10 : n < 10
    · rw [if_pos h10] at hc
      rcases List.mem_singleton.mp hc with rfl
      exact (digit_facts n h10).2.1
    · rw [if_neg h10] at hc
      rcases List.mem_append.mp hc with h1 | h1
      · exact ih (n / 10) (by omega) c h1
      · rcases List.mem_singleton.mp h1 with rfl
        exact (digit_facts (n % 10) (by omega)).2.1

lemma natToChars_digits (n : Nat) : ∀ c ∈ natToChars n, c.isDigit = true :=
  natToCharsAux_digits (n + 1) n (by omega)

lemma isDigit_ne_dot (c : Char) (h : c.isDigit = true) : c ≠ '.' := by
  intro he
  subst he
  exact absurd h (by decide)

lemma natToChars_length_le_two : ∀ r : Nat, r < 100 → (natToChars r).length ≤ 2 := by
  decide

lemma padLeftZeros_two (cs : List Char) (h : cs.length ≤ 2)
    (hd : ∀ c ∈ cs, c.isDigit = true) :
    ∃ a b, padLeftZeros 2 cs = [a, b] ∧ a.isDigit = true ∧ b.isDigit = true := by
  match cs with
  | [] => exact ⟨'0', '0', rfl, by decide, by decide⟩
  | [c] => exact ⟨'0', c, rfl, by decide, hd c (List.mem_singleton_self c)⟩
  | [c, d] =>
    exact ⟨c, d, rfl, hd c (by simp), hd d (by simp)⟩
  | c :: d :: e :: tl => simp at h

lemma decToString_scale2 (m : Int) :
    ∃ pre a b, (decToString ⟨m, -2⟩).data = pre ++ ['.', a, b] ∧
      a.isDigit = true ∧ b.isDigit = true ∧ ∀ c ∈ pre, c ≠ '.' := by
  have hrepr : decToString ⟨m, -2⟩ =
      String.mk ((if m < 0 then ['-'] else []) ++ natToChars (m.natAbs / 100) ++
        ['.'] ++ padLeftZeros 2 (natToChars (m.natAbs % 100))) := rfl
  obtain ⟨a, b, hpad, ha, hb⟩ := padLeftZeros_two (natToChars (m.natAbs % 100))
    (natToChars_length_le_two _ (by omega)) (natToChars_digits _)
  refine ⟨(if m < 0 then ['-'] else []) ++ natToChars (m.natAbs / 100), a, b,
    ?_, ha, hb, ?_⟩
  · rw [hrepr]
    show ((if m < 0 then ['-'] else []) ++ natToChars (m.natAbs / 100) ++
        ['.'] ++ padLeftZeros 2 (natToChars (m.natAbs % 100))) = _
    rw [hpad]
    simp [List.append_assoc]
  · intro c hc
    rcases List.mem_append.mp hc with h1 | h1
    · by_cases hm : m < 0
      · rw [if_pos hm] at h1
        rcases List.mem_singleton.mp h1 with rfl
        decide
      · rw [if_neg hm] at h1
        cases h1
    · exact isDigit_ne_dot c (natToChars_digits _ c h1)

/-- C9: every transfer payload serializes the amount as the
round-half-up two-decimal quantization rendered in fixed-point form
with exactly two digits after the single decimal point, and the
`message` / `dueDate` keys are omitted exactly when the description is
empty respectively when no (or an empty) due date is given. -/
theorem spec_c9 :
    ∀ (fromAccount toAccount : String) (amount : Dec)
      (currency description : String) (dueDate : Option String),
    (transfer_money fromAccount toAccount amount currency description
        dueDate).amount = decToString (specRoundHalfUp2 amount) ∧
    (∃ pre a b,
      (transfer_money fromAccount toAccount amount currency description
          dueDate).amount.data = pre ++ ['.', a, b] ∧
        a.isDigit = true ∧ b.isDigit = true ∧ ∀ c ∈ pre, c ≠ '.') ∧
    ((transfer_money fromAccount toAccount amount currency description
        dueDate).message = none ↔ description = "") ∧
    ((transfer_money fromAccount toAccount amount currency description
        dueDate).dueDate = none ↔ (dueDate = none ∨ dueDate = some "")) := by
  intro f t amount ccy desc dd
  have hz : ∃ z, quantizeHalfUp2 amount = ⟨z, -2⟩ := by
    unfold quantizeHalfUp2
    split_ifs
    · exact ⟨_, rfl⟩
    · exact ⟨_, rfl⟩
  obtain ⟨z, hzz⟩ := hz
  refine ⟨?_, ?_, ?_, ?_⟩
  · show decToString (quantizeHalfUp2 amount) = _
    rw [quantizeHalfUp2_eq_spec]
  · have hamt : (transfer_money f t amount ccy desc dd).amount =
        decToString ⟨z, -2⟩ := by
      show decToString (quantizeHalfUp2 amount) = _
      rw [hzz]
    rw [hamt]
    exact decToString_scale2 z
  · by_cases h : desc = "" <;> simp [transfer_money, h]
  · cases dd with
    | none => simp [transfer_money]
    | some s => by_cases h : s = "" <;> simp [transfer_money, h]

/-- C4 counterexample: "00000000000" is valid, and so is the
single-digit mutation "90000000000" (position 0 changed from 0 to 9),
because the weighted remainder moves from 0 to 1 and both map to check
digit 0 — contradicting the claim that every single-digit mutation is
rejected. -/
theorem spec_c4_counterexample :
    validate_norwegian_account_number "00000000000" = true ∧
    validate_norwegian_account_number "90000000000" = true ∧
    "90000000000".data = "00000000000".data.set 0 '9' ∧
    ('9' : Char) ≠ "00000000000".data.getD 0 ' ' :=
  ⟨by decide, by decide, by decide, by decide⟩

end SB1
